import Mathlib

/-!
Verification of the mDNS responder FSM (`src/fsm.rs` of libmdns).

The development shallowly embeds the per-poll-step driver and its helpers:
`recv_packets`, `handle_packet`, `handle_question`, `add_ip_rr`,
`send_unsolicited`, and the `Future::poll` implementation.  External
collaborators (the DNS wire-format parser/builder, the service registry,
interface enumeration and the address-family policy) are modelled at their
interface boundary, following the specification.
-/

namespace Mdns

/-- A DNS name.  Wire encoding is out of scope; names are compared for
equality only, so plain strings suffice. -/
abbrev Name := String

/-- An IP address, tagged by family.  The payload is abstract (a numeral). -/
inductive IpAddr where
  | V4 (a : Nat)
  | V6 (a : Nat)
deriving DecidableEq, Repr

/-- A socket address: IP address plus port. -/
structure SocketAddr where
  ip : IpAddr
  port : Nat
deriving DecidableEq, Repr

/-- Modelled from the spec: the address-family policy parameter, selecting
IPv4 vs IPv6 behaviour: the multicast group address and whether the family
is IPv6 (`AF::v6()` decides which record type is emitted for interface
addresses).  The real `AddressFamily` trait lives outside `src/`. -/
structure AddressFamily where
  v6 : Bool
  mdns_group : IpAddr
deriving DecidableEq, Repr

/-- A network interface as reported by enumeration: an address and a
loopback flag (the collaborator interface of §6 of the spec). -/
structure Iface where
  ip : IpAddr
  loopback : Bool
deriving DecidableEq, Repr

/-- DNS query type, restricted to the constructors `handle_question`
distinguishes; every other wire value is `Other`. -/
inductive QueryType where
  | A
  | AAAA
  | All
  | PTR
  | SRV
  | TXT
  | Other
deriving DecidableEq, Repr

/-- DNS query class: Internet, Any, or anything else. -/
inductive QueryClass where
  | IN
  | Any
  | Other
deriving DecidableEq, Repr

/-- A parsed question: name, class, type and the `qu` (unicast-preferred)
flag. -/
structure Question where
  qname : Name
  qclass : QueryClass
  qtype : QueryType
  qu : Bool
deriving DecidableEq, Repr

/-- Resource-record payloads emitted by the responder. -/
inductive RRData where
  | A (ip : Nat)
  | AAAA (ip : Nat)
  | PTR (target : Name)
  | SRV (host : Name) (port : Nat)
  | TXT (data : List Nat)
deriving DecidableEq, Repr

/-- One answer record appended into a response-in-progress. -/
structure Record where
  name : Name
  cls : QueryClass
  ttl : Nat
  rdata : RRData
deriving DecidableEq, Repr

/-- Modelled from the spec: the response builder of the external
`dns_parser` crate, as used by the FSM: keyed by packet id and the
TC/QR header flags, accumulating an answer section; emptiness is
observable.  `new_response(id, false, true)` sets `tc := false`,
`qr := true`. -/
structure AnswerBuilder where
  id : Nat
  tc : Bool
  qr : Bool
  answers : List Record
deriving DecidableEq, Repr

/-- Modelled from the spec: `Builder::new_response(id, false, true)
.move_to::<Answers>()` — a fresh response builder with the given id,
truncated bit clear, response bit set, and no answers. -/
def newResponse (id : Nat) : AnswerBuilder :=
  { id := id, tc := false, qr := true, answers := [] }

/-- Modelled from the spec: the builder's emptiness test, gating whether a
build is finalized and enqueued. -/
def AnswerBuilder.isEmpty (b : AnswerBuilder) : Bool :=
  b.answers.isEmpty

/-- Modelled from the spec: `Builder::add_answer` appends one record to the
response-in-progress. -/
def AnswerBuilder.add_answer (b : AnswerBuilder) (name : Name)
    (cls : QueryClass) (ttl : Nat) (rdata : RRData) : AnswerBuilder :=
  { b with answers := b.answers ++ [⟨name, cls, ttl, rdata⟩] }

/-- A registered service instance: type name, instance name, port and TXT
metadata (the external `ServiceData`). -/
structure ServiceData where
  typ : Name
  name : Name
  port : Nat
  txt : List Nat
deriving DecidableEq, Repr

/-- Modelled from the spec: `svc.add_ptr_rr(builder, ttl)` appends the PTR
record for the service (type name pointing at the instance name). -/
def ServiceData.add_ptr_rr (svc : ServiceData) (b : AnswerBuilder)
    (ttl : Nat) : AnswerBuilder :=
  b.add_answer svc.typ .IN ttl (.PTR svc.name)

/-- Modelled from the spec: `svc.add_srv_rr(hostname, builder, ttl)`
appends the SRV record for the service, referencing the hostname. -/
def ServiceData.add_srv_rr (svc : ServiceData) (hostname : Name)
    (b : AnswerBuilder) (ttl : Nat) : AnswerBuilder :=
  b.add_answer svc.name .IN ttl (.SRV hostname svc.port)

/-- Modelled from the spec: `svc.add_txt_rr(builder, ttl)` appends the TXT
record for the service. -/
def ServiceData.add_txt_rr (svc : ServiceData) (b : AnswerBuilder)
    (ttl : Nat) : AnswerBuilder :=
  b.add_answer svc.name .IN ttl (.TXT svc.txt)

/-- Modelled from the spec: the read view of the service registry —
`get_hostname()`, `find_by_type(name)` and `find_by_name(name)`, kept
abstract as the collaborator interface of §6 of the spec. -/
structure Services where
  hostname : Name
  find_by_type : Name → List ServiceData
  find_by_name : Name → Option ServiceData

/-- Modelled from the spec: `DEFAULT_TTL` from the crate root (outside
`src/`); the claims do not depend on its value. -/
def DEFAULT_TTL : Nat := 4500

/-- `MDNS_PORT`: the standard mDNS port. -/
def MDNS_PORT : Nat := 5353

/-- A parsed inbound DNS message, as far as `handle_packet` inspects it:
header id, query (QR) bit, truncated (TC) bit, and the question list. -/
structure Packet where
  id : Nat
  query : Bool
  truncated : Bool
  questions : List Question
deriving DecidableEq, Repr

/-- An outgoing packet: the built response paired with its destination.
`build().unwrap_or_else(|x| x)` serializes the builder; serialization is
out of scope, so the payload is the builder itself. -/
abbrev OutPacket := AnswerBuilder × SocketAddr

/-- `FSM::add_ip_rr` (src/fsm.rs:187-214): enumerate local interfaces and
append an A (IPv4 family) or AAAA (IPv6 family) record for each
non-loopback interface whose address family matches; enumeration failure
(`ifaces = none`) is non-fatal and appends nothing. -/
def add_ip_rr (af : AddressFamily) (ifaces : Option (List Iface))
    (hostname : Name) (builder : AnswerBuilder) (ttl : Nat) : AnswerBuilder :=
  match ifaces with
  | none => builder
  | some interfaces =>
    interfaces.foldl
      (fun b iface =>
        if iface.loopback then b
        else
          match iface.ip with
          | .V4 ip => if !af.v6 then b.add_answer hostname .IN ttl (.A ip) else b
          | .V6 ip => if af.v6 then b.add_answer hostname .IN ttl (.AAAA ip) else b)
      builder

/-- `FSM::handle_question` (src/fsm.rs:149-185): dispatch one question,
appending records per its query type.  A failed guard on the
`A | AAAA | All` arm falls through to the catch-all arm in the Rust
`match`, appending nothing. -/
def handle_question (af : AddressFamily) (ifaces : Option (List Iface))
    (services : Services) (question : Question)
    (builder : AnswerBuilder) : AnswerBuilder :=
  match question.qtype with
  | .A | .AAAA | .All =>
    if question.qname = services.hostname then
      add_ip_rr af ifaces services.hostname builder DEFAULT_TTL
    else
      builder
  | .PTR =>
    (services.find_by_type question.qname).foldl
      (fun b svc =>
        let b := svc.add_ptr_rr b DEFAULT_TTL
        let b := svc.add_srv_rr services.hostname b DEFAULT_TTL
        let b := svc.add_txt_rr b DEFAULT_TTL
        add_ip_rr af ifaces services.hostname b DEFAULT_TTL)
      builder
  | .SRV =>
    match services.find_by_name question.qname with
    | some svc =>
      let b := svc.add_srv_rr services.hostname builder DEFAULT_TTL
      add_ip_rr af ifaces services.hostname b DEFAULT_TTL
    | none => builder
  | .TXT =>
    match services.find_by_name question.qname with
    | some svc => svc.add_txt_rr builder DEFAULT_TTL
    | none => builder
  | .Other => builder

/-- `FSM::handle_packet` (src/fsm.rs:93-147): given the parse result of an
inbound datagram (`none` = parse failure) and its source address, drop
non-queries and truncated messages; otherwise fold every Internet/Any
class question into the unicast builder (when `qu` is set) or the
multicast builder (when unset), then enqueue each non-empty builder:
multicast first, to the group on `MDNS_PORT`, then unicast, back to the
source address. -/
def handle_packet (af : AddressFamily) (ifaces : Option (List Iface))
    (services : Services) (outgoing : List OutPacket)
    (parsed : Option Packet) (addr : SocketAddr) : List OutPacket :=
  match parsed with
  | none => outgoing
  | some packet =>
    if !packet.query then outgoing
    else if packet.truncated then outgoing
    else
      let pair :=
        packet.questions.foldl
          (fun (p : AnswerBuilder × AnswerBuilder) question =>
            if question.qclass = .IN ∨ question.qclass = .Any then
              if question.qu then
                (handle_question af ifaces services question p.1, p.2)
              else
                (p.1, handle_question af ifaces services question p.2)
            else p)
          (newResponse packet.id, newResponse packet.id)
      let unicast_builder := pair.1
      let multicast_builder := pair.2
      let outgoing :=
        if !multicast_builder.isEmpty then
          outgoing ++ [(multicast_builder, ⟨af.mdns_group, MDNS_PORT⟩)]
        else outgoing
      if !unicast_builder.isEmpty then
        outgoing ++ [(unicast_builder, addr)]
      else outgoing

/-- One outcome of `socket.poll_recv_from` while it keeps returning
`Ready`: either a datagram (its reported length, the parse result of its
bytes, and its source address) or a socket error other than would-block.
The end of the list is `Poll::Pending` (no more inbound data this step). -/
inductive RecvEvent where
  | ok (len : Nat) (parsed : Option Packet) (addr : SocketAddr)
  | err
deriving Repr

/-- The error value `recv_packets` can return: the distinguishable
`Error::BufferTooSmall(bytes, size)` capacity violation, or an underlying
socket error. -/
inductive IoError where
  | socketErr
  | bufferTooSmall (bytes : Nat) (size : Nat)
deriving DecidableEq, Repr

/-- `FSM::recv_packets` (src/fsm.rs:71-91): loop on non-blocking receive
with a 4096-byte buffer.  A socket error is returned immediately; a
datagram whose reported length is ≥ the buffer capacity returns
`BufferTooSmall` without handling it; otherwise the datagram is handled
and the loop continues.  `Poll::Pending` (list exhausted) ends the loop
with `Ok(())` (`none`). -/
def recv_packets (af : AddressFamily) (ifaces : Option (List Iface))
    (services : Services) (outgoing : List OutPacket) :
    List RecvEvent → List OutPacket × Option IoError
  | [] => (outgoing, none)
  | .err :: _ => (outgoing, some .socketErr)
  | .ok len parsed addr :: rest =>
    if len ≥ 4096 then
      (outgoing, some (.bufferTooSmall len 4096))
    else
      recv_packets af ifaces services
        (handle_packet af ifaces services outgoing parsed addr) rest

/-- `FSM::send_unsolicited` (src/fsm.rs:216-235): build a response with
id 0 containing PTR, SRV, TXT and (when `include_ip`) address records for
the service at the given TTL; enqueue it to the multicast group on
`MDNS_PORT` unless the builder is empty. -/
def send_unsolicited (af : AddressFamily) (ifaces : Option (List Iface))
    (services : Services) (outgoing : List OutPacket)
    (svc : ServiceData) (ttl : Nat) (include_ip : Bool) : List OutPacket :=
  let builder := newResponse 0
  let builder := svc.add_ptr_rr builder ttl
  let builder := svc.add_srv_rr services.hostname builder ttl
  let builder := svc.add_txt_rr builder ttl
  let builder :=
    if include_ip then add_ip_rr af ifaces services.hostname builder ttl
    else builder
  if !builder.isEmpty then
    outgoing ++ [(builder, ⟨af.mdns_group, MDNS_PORT⟩)]
  else outgoing

/-- A command received on the command channel. -/
inductive Command where
  | sendUnsolicited (svc : ServiceData) (ttl : Nat) (include_ip : Bool)
  | shutdown
deriving Repr

/-- One outcome of `commands.poll_next` while it keeps returning `Ready`:
a command, or `Ready(None)` (channel closed).  The end of the list is
`Poll::Pending` (no command available this step). -/
inductive CommandEvent where
  | cmd (c : Command)
  | closed
deriving Repr

/-- The command-drain loop at the head of `FSM::poll`
(src/fsm.rs:242-257): process `SendUnsolicited` commands in order;
`Shutdown` or channel closure stops the drain and terminates the driver
(second component `true`). -/
def drainCommands (af : AddressFamily) (ifaces : Option (List Iface))
    (services : Services) (outgoing : List OutPacket) :
    List CommandEvent → List OutPacket × Bool
  | [] => (outgoing, false)
  | .cmd .shutdown :: _ => (outgoing, true)
  | .cmd (.sendUnsolicited svc ttl include_ip) :: rest =>
    drainCommands af ifaces services
      (send_unsolicited af ifaces services outgoing svc ttl include_ip) rest
  | .closed :: _ => (outgoing, true)

/-- One outcome of `socket.poll_send_to` for an attempt on the front
outbound entry: full send (written bytes equal the packet length), partial
send, would-block, some other error, or `Poll::Pending`. -/
inductive SendOutcome where
  | okFull
  | okPartial
  | wouldBlock
  | otherErr
  | pending
deriving DecidableEq, Repr

/-- The outbound send loop of `FSM::poll` (src/fsm.rs:265-275): while the
queue has a front entry, attempt one send; a full send, would-block or
`Pending` breaks the loop, a partial send or any other error logs and
retries.  The loop body never mutates the queue; the returned queue is
whatever remains when the loop stops (exhausting the attempt list leaves
the queue as-is). -/
def sendLoop (queue : List OutPacket) : List SendOutcome → List OutPacket
  | [] => queue
  | outcome :: rest =>
    match queue with
    | [] => queue
    | _ :: _ =>
      match outcome with
      | .okFull => queue
      | .okPartial => sendLoop queue rest
      | .wouldBlock => queue
      | .otherErr => sendLoop queue rest
      | .pending => queue

/-- The outbound-drain phase of `FSM::poll` (src/fsm.rs:265-276): run the
send loop, then unconditionally `pop_front` the queue. -/
def outboundPhase (queue : List OutPacket) (outcomes : List SendOutcome) :
    List OutPacket :=
  (sendLoop queue outcomes).tail

/-- The value `FSM::poll` returns: `ready` is `Poll::Ready(())`
(driver terminated), `pending` is `Poll::Pending` (still running). -/
inductive PollResult where
  | ready
  | pending
deriving DecidableEq, Repr

/-- `<FSM as Future>::poll` (src/fsm.rs:240-280): drain the command
channel first, returning `Ready` immediately on `Shutdown` or channel
closure; otherwise run `recv_packets` (any error is logged and
discarded), then the outbound-drain phase, and return `Pending`. -/
def pollStep (af : AddressFamily) (ifaces : Option (List Iface))
    (services : Services) (outgoing : List OutPacket)
    (cmdEvents : List CommandEvent) (recvEvents : List RecvEvent)
    (sendOutcomes : List SendOutcome) : List OutPacket × PollResult :=
  let afterCmds := drainCommands af ifaces services outgoing cmdEvents
  if afterCmds.2 then
    (afterCmds.1, .ready)
  else
    let afterRecv := recv_packets af ifaces services afterCmds.1 recvEvents
    (outboundPhase afterRecv.1 sendOutcomes, .pending)

/-! Derived record lists.  The following definitions restate, as explicit
lists, what the source functions append; the lemmas below prove the source
translations equal to them. -/

/-- The records one interface contributes in `add_ip_rr`. -/
def ipStep (af : AddressFamily) (hostname : Name) (ttl : Nat)
    (iface : Iface) : List Record :=
  if iface.loopback then []
  else
    match iface.ip with
    | .V4 ip => if !af.v6 then [⟨hostname, .IN, ttl, .A ip⟩] else []
    | .V6 ip => if af.v6 then [⟨hostname, .IN, ttl, .AAAA ip⟩] else []

/-- All address records `add_ip_rr` appends for a given interface view. -/
def ipRecords (af : AddressFamily) (ifaces : Option (List Iface))
    (hostname : Name) (ttl : Nat) : List Record :=
  match ifaces with
  | none => []
  | some interfaces => interfaces.flatMap (ipStep af hostname ttl)

/-- The records `handle_question` appends for one question. -/
def questionRecords (af : AddressFamily) (ifaces : Option (List Iface))
    (services : Services) (question : Question) : List Record :=
  match question.qtype with
  | .A | .AAAA | .All =>
    if question.qname = services.hostname then
      ipRecords af ifaces services.hostname DEFAULT_TTL
    else []
  | .PTR =>
    (services.find_by_type question.qname).flatMap
      (fun svc =>
        ⟨svc.typ, .IN, DEFAULT_TTL, .PTR svc.name⟩ ::
        ⟨svc.name, .IN, DEFAULT_TTL, .SRV services.hostname svc.port⟩ ::
        ⟨svc.name, .IN, DEFAULT_TTL, .TXT svc.txt⟩ ::
        ipRecords af ifaces services.hostname DEFAULT_TTL)
  | .SRV =>
    match services.find_by_name question.qname with
    | some svc =>
      ⟨svc.name, .IN, DEFAULT_TTL, .SRV services.hostname svc.port⟩ ::
      ipRecords af ifaces services.hostname DEFAULT_TTL
    | none => []
  | .TXT =>
    match services.find_by_name question.qname with
    | some svc => [⟨svc.name, .IN, DEFAULT_TTL, .TXT svc.txt⟩]
    | none => []
  | .Other => []

/-- The answer section accumulated by dispatching a list of questions into
one (initially empty) builder. -/
def answersFor (af : AddressFamily) (ifaces : Option (List Iface))
    (services : Services) (qs : List Question) : List Record :=
  qs.flatMap (questionRecords af ifaces services)

/-- The questions of a packet that reach the unicast builder: Internet or
Any class, `qu` flag set. -/
def eligibleUnicast (qs : List Question) : List Question :=
  qs.filter (fun q =>
    (q.qclass == QueryClass.IN || q.qclass == QueryClass.Any) && q.qu)

/-- The questions of a packet that reach the multicast builder: Internet or
Any class, `qu` flag unset. -/
def eligibleMulticast (qs : List Question) : List Question :=
  qs.filter (fun q =>
    (q.qclass == QueryClass.IN || q.qclass == QueryClass.Any) && !q.qu)

/-! Concrete fixtures, used to evaluate the theorems below on closed
inputs. -/

/-- A concrete IPv4 address-family policy. -/
def af0 : AddressFamily := ⟨false, .V4 0⟩

/-- A concrete registered service. -/
def svc0 : ServiceData := ⟨"_http._tcp.local", "web._http._tcp.local", 80, [1]⟩

/-- A concrete registry: hostname `host.local`, with `svc0` registered both
under its type and under its instance name. -/
def services0 : Services :=
  ⟨"host.local",
   fun n => if n = svc0.typ then [svc0] else [],
   fun n => if n = svc0.name then some svc0 else none⟩

/-- A concrete outbound-queue entry. -/
def pkt0 : OutPacket := (newResponse 7, ⟨.V4 1, 1234⟩)

/-- A concrete response-in-progress. -/
def b0 : AnswerBuilder := newResponse 3

/-! Structural lemmas about the builders. -/

/-- Folding a record-appending step over a list appends the concatenation
of the per-element record lists. -/
theorem foldl_append_eq {α : Type} (f : AnswerBuilder → α → AnswerBuilder)
    (g : α → List Record)
    (hf : ∀ b x, f b x = { b with answers := b.answers ++ g x }) :
    ∀ (l : List α) (b : AnswerBuilder),
      l.foldl f b = { b with answers := b.answers ++ l.flatMap g } := by
  intro l
  induction l with
  | nil => intro b; simp
  | cons x xs ih =>
    intro b
    simp [List.foldl_cons, hf, ih, List.flatMap_cons, List.append_assoc]

/-- `add_ip_rr` appends exactly `ipRecords` and touches nothing else. -/
theorem add_ip_rr_eq (af : AddressFamily) (ifaces : Option (List Iface))
    (hostname : Name) (b : AnswerBuilder) (ttl : Nat) :
    add_ip_rr af ifaces hostname b ttl =
      { b with answers := b.answers ++ ipRecords af ifaces hostname ttl } := by
  cases ifaces with
  | none => simp [add_ip_rr, ipRecords]
  | some interfaces =>
    show List.foldl _ b interfaces = _
    rw [foldl_append_eq _ (ipStep af hostname ttl)]
    · rfl
    · intro b x
      by_cases hl : x.loopback
      · simp [ipStep, hl]
      · cases hip : x.ip <;> by_cases hv : af.v6 <;>
          simp [ipStep, hl, hip, hv, AnswerBuilder.add_answer]

/-- `handle_question` appends exactly `questionRecords` and touches nothing
else. -/
theorem handle_question_eq (af : AddressFamily) (ifaces : Option (List Iface))
    (services : Services) (question : Question) (b : AnswerBuilder) :
    handle_question af ifaces services question b =
      { b with answers :=
          b.answers ++ questionRecords af ifaces services question } := by
  obtain ⟨qn, qc, qt, qu⟩ := question
  cases qt with
  | A =>
    by_cases h : qn = services.hostname <;>
      simp [handle_question, questionRecords, h, add_ip_rr_eq]
  | AAAA =>
    by_cases h : qn = services.hostname <;>
      simp [handle_question, questionRecords, h, add_ip_rr_eq]
  | All =>
    by_cases h : qn = services.hostname <;>
      simp [handle_question, questionRecords, h, add_ip_rr_eq]
  | PTR =>
    show List.foldl _ b _ = _
    rw [foldl_append_eq _
      (fun svc =>
        ⟨svc.typ, .IN, DEFAULT_TTL, .PTR svc.name⟩ ::
        ⟨svc.name, .IN, DEFAULT_TTL, .SRV services.hostname svc.port⟩ ::
        ⟨svc.name, .IN, DEFAULT_TTL, .TXT svc.txt⟩ ::
        ipRecords af ifaces services.hostname DEFAULT_TTL)]
    · rfl
    · intro b svc
      simp [ServiceData.add_ptr_rr, ServiceData.add_srv_rr,
        ServiceData.add_txt_rr, AnswerBuilder.add_answer, add_ip_rr_eq]
  | SRV =>
    cases h : services.find_by_name qn <;>
      simp [handle_question, questionRecords, h, add_ip_rr_eq,
        ServiceData.add_srv_rr, AnswerBuilder.add_answer]
  | TXT =>
    cases h : services.find_by_name qn <;>
      simp [handle_question, questionRecords, h,
        ServiceData.add_txt_rr, AnswerBuilder.add_answer]
  | Other => simp [handle_question, questionRecords]

/-- Folding `handle_question` over a question list from an empty-answered
builder yields `answersFor`. -/
theorem foldl_handle_question (af : AddressFamily)
    (ifaces : Option (List Iface)) (services : Services)
    (qs : List Question) (b : AnswerBuilder) :
    qs.foldl (fun b q => handle_question af ifaces services q b) b =
      { b with answers := b.answers ++ answersFor af ifaces services qs } :=
  foldl_append_eq _ _ (fun b q => handle_question_eq af ifaces services q b)
    qs b

/-- The question loop of `handle_packet` splits into the two filtered
folds: `qu` questions of eligible class reach the unicast builder, the
rest of the eligible questions reach the multicast builder, and ineligible
classes touch neither. -/
theorem handle_packet_fold_split (af : AddressFamily)
    (ifaces : Option (List Iface)) (services : Services) :
    ∀ (qs : List Question) (p : AnswerBuilder × AnswerBuilder),
      qs.foldl
        (fun (p : AnswerBuilder × AnswerBuilder) question =>
          if question.qclass = .IN ∨ question.qclass = .Any then
            if question.qu then
              (handle_question af ifaces services question p.1, p.2)
            else
              (p.1, handle_question af ifaces services question p.2)
          else p) p =
      ((eligibleUnicast qs).foldl
          (fun b q => handle_question af ifaces services q b) p.1,
       (eligibleMulticast qs).foldl
          (fun b q => handle_question af ifaces services q b) p.2) := by
  intro qs
  induction qs with
  | nil => intro p; simp [eligibleUnicast, eligibleMulticast]
  | cons q rest ih =>
    intro p
    obtain ⟨qn, qc, qt, qu⟩ := q
    cases qc <;> cases qu <;>
      simp [List.foldl_cons, eligibleUnicast, eligibleMulticast,
        List.filter_cons, ih]

/-- The send loop of the outbound phase never mutates the queue, whatever
the attempt outcomes. -/
theorem sendLoop_eq (queue : List OutPacket) :
    ∀ outcomes : List SendOutcome, sendLoop queue outcomes = queue := by
  intro outcomes
  induction outcomes with
  | nil => simp [sendLoop]
  | cons o rest ih =>
    cases queue with
    | nil => simp [sendLoop]
    | cons front tail => cases o <;> simp [sendLoop, ih]

/-- Every address record produced by `ipRecords` carries the requested
TTL. -/
theorem ipRecords_ttl (af : AddressFamily) (ifaces : Option (List Iface))
    (hostname : Name) (ttl : Nat) :
    (ipRecords af ifaces hostname ttl).all (fun r => r.ttl == ttl) = true := by
  cases ifaces with
  | none => simp [ipRecords]
  | some interfaces =>
    simp only [ipRecords, List.all_eq_true]
    intro r hr
    rw [List.mem_flatMap] at hr
    obtain ⟨x, _, hr⟩ := hr
    by_cases hl : x.loopback
    · simp [ipStep, hl] at hr
    · cases hip : x.ip <;> by_cases hv : af.v6 <;>
        simp [ipStep, hl, hip, hv] at hr <;> simp [hr]

/-- The full characterization of `handle_packet` on a non-truncated query:
the outbound queue grows by the (at most one) multicast response holding
the answers of the eligible non-`qu` questions, then the (at most one)
unicast response holding the answers of the eligible `qu` questions, each
present exactly when its answer section is non-empty. -/
theorem handle_packet_eq (af : AddressFamily) (ifaces : Option (List Iface))
    (services : Services) (outgoing : List OutPacket) (id : Nat)
    (qs : List Question) (addr : SocketAddr) :
    handle_packet af ifaces services outgoing (some ⟨id, true, false, qs⟩) addr =
      outgoing ++
        (if answersFor af ifaces services (eligibleMulticast qs) = [] then []
         else [(⟨id, false, true, answersFor af ifaces services (eligibleMulticast qs)⟩,
                ⟨af.mdns_group, MDNS_PORT⟩)]) ++
        (if answersFor af ifaces services (eligibleUnicast qs) = [] then []
         else [(⟨id, false, true, answersFor af ifaces services (eligibleUnicast qs)⟩,
                addr)]) := by
  simp only [handle_packet]
  rw [handle_packet_fold_split, foldl_handle_question, foldl_handle_question]
  by_cases hm : answersFor af ifaces services (eligibleMulticast qs) = [] <;>
    by_cases hu : answersFor af ifaces services (eligibleUnicast qs) = [] <;>
      simp [hm, hu, AnswerBuilder.isEmpty, newResponse, List.append_assoc]

/-- Claim C1: on every poll step, the send loop of the outbound-drain phase
never mutates the queue, and at the end of the phase exactly the one front
entry is removed from a non-empty queue, regardless of whether the send
attempts completed fully, completed partially, would have blocked, were
pending, or errored. -/
theorem outbound_drain_pops_exactly_front (front : OutPacket)
    (rest : List OutPacket) (outcomes : List SendOutcome) :
    sendLoop (front :: rest) outcomes = front :: rest ∧
    outboundPhase (front :: rest) outcomes = rest := by
  refine ⟨sendLoop_eq _ _, ?_⟩
  simp [outboundPhase, sendLoop_eq]

/-- Claim C2, counterexample to the claim as stated: a poll step in which
the receive path hits an unrecoverable socket error (other than
would-block) still returns `Pending` — the driver is *not* terminated,
contradicting the claim that such an error is fatal to the driver. -/
theorem recv_socket_error_not_fatal_cex :
    (recv_packets af0 none services0 [pkt0] [RecvEvent.err]).2 =
      some IoError.socketErr ∧
    (pollStep af0 none services0 [pkt0] [] [RecvEvent.err] []).2 =
      PollResult.pending ∧
    PollResult.pending ≠ PollResult.ready :=
  ⟨rfl, rfl, by decide⟩

/-- Claim C2 as amended: an unrecoverable socket error during receive is
surfaced from ingestion but, like every other error class, is contained to
the current poll step: the driver logs it, still runs the outbound-drain
phase, and remains running (`Pending`). -/
theorem recv_socket_error_contained (af : AddressFamily)
    (ifaces : Option (List Iface)) (services : Services)
    (outgoing : List OutPacket) (rs : List RecvEvent)
    (ss : List SendOutcome) :
    (recv_packets af ifaces services outgoing (.err :: rs)).2 =
      some IoError.socketErr ∧
    pollStep af ifaces services outgoing [] (.err :: rs) ss =
      (outgoing.tail, .pending) := by
  refine ⟨rfl, ?_⟩
  simp [pollStep, drainCommands, recv_packets, outboundPhase, sendLoop_eq]

/-- Claim C3: processing a well-formed, non-truncated query datagram
produces at most one multicast-addressed and at most one unicast-addressed
outgoing packet (none if no question matched any record rule); the answers
of eligible `qu` questions go into the packet addressed back to the
sender's source address, those of eligible non-`qu` questions into the
packet addressed to the address-family multicast group on port 5353. -/
theorem handle_packet_response_routing (af : AddressFamily)
    (ifaces : Option (List Iface)) (services : Services)
    (outgoing : List OutPacket) (id : Nat) (qs : List Question)
    (addr : SocketAddr) :
    handle_packet af ifaces services outgoing (some ⟨id, true, false, qs⟩) addr =
      outgoing ++
        (if answersFor af ifaces services (eligibleMulticast qs) = [] then []
         else [(⟨id, false, true, answersFor af ifaces services (eligibleMulticast qs)⟩,
                ⟨af.mdns_group, MDNS_PORT⟩)]) ++
        (if answersFor af ifaces services (eligibleUnicast qs) = [] then []
         else [(⟨id, false, true, answersFor af ifaces services (eligibleUnicast qs)⟩,
                addr)]) ∧
    (handle_packet af ifaces services outgoing
        (some ⟨id, true, false, qs⟩) addr).length ≤ outgoing.length + 2 ∧
    (answersFor af ifaces services (eligibleMulticast qs) = [] →
     answersFor af ifaces services (eligibleUnicast qs) = [] →
     handle_packet af ifaces services outgoing
        (some ⟨id, true, false, qs⟩) addr = outgoing) := by
  have E := handle_packet_eq af ifaces services outgoing id qs addr
  refine ⟨E, ?_, ?_⟩
  · rw [E]
    by_cases hm : answersFor af ifaces services (eligibleMulticast qs) = [] <;>
      by_cases hu : answersFor af ifaces services (eligibleUnicast qs) = [] <;>
        simp [hm, hu]
  · intro hm hu
    rw [E]
    simp [hm, hu]

/-- Claim C3 witness: a query with no questions enqueues nothing. -/
theorem handle_packet_response_routing_witness :
    handle_packet af0 none services0 [pkt0]
      (some ⟨5, true, false, []⟩) ⟨.V4 9, 999⟩ = [pkt0] :=
  (handle_packet_response_routing af0 none services0 [pkt0] 5 []
    ⟨.V4 9, 999⟩).2.2 rfl rfl

/-- Claim C4: a PTR question appends, for each service registered under
the queried type, its PTR record, then its SRV record, then its TXT
record, then zero or more address records, in that relative order. -/
theorem ptr_question_record_order (af : AddressFamily)
    (ifaces : Option (List Iface)) (services : Services) (qn : Name)
    (qc : QueryClass) (qu : Bool) (b : AnswerBuilder) :
    handle_question af ifaces services ⟨qn, qc, .PTR, qu⟩ b =
      { b with answers := b.answers ++
          (services.find_by_type qn).flatMap (fun svc =>
            ⟨svc.typ, .IN, DEFAULT_TTL, .PTR svc.name⟩ ::
            ⟨svc.name, .IN, DEFAULT_TTL, .SRV services.hostname svc.port⟩ ::
            ⟨svc.name, .IN, DEFAULT_TTL, .TXT svc.txt⟩ ::
            ipRecords af ifaces services.hostname DEFAULT_TTL) } :=
  handle_question_eq af ifaces services ⟨qn, qc, .PTR, qu⟩ b

/-- Claim C5: `SendUnsolicited{service, ttl, include_ip}` enqueues exactly
one packet, addressed to the multicast group on port 5353, whose response
has message id 0 and answer section PTR, SRV, TXT, then (only when
`include_ip`) address records, all carrying the given TTL.  (The build is
never empty here, so the emptiness guard of the source never skips the
enqueue.) -/
theorem send_unsolicited_enqueues_one_multicast (af : AddressFamily)
    (ifaces : Option (List Iface)) (services : Services)
    (outgoing : List OutPacket) (svc : ServiceData) (ttl : Nat)
    (include_ip : Bool) :
    send_unsolicited af ifaces services outgoing svc ttl include_ip =
      outgoing ++
        [({ id := 0, tc := false, qr := true,
            answers :=
              ⟨svc.typ, .IN, ttl, .PTR svc.name⟩ ::
              ⟨svc.name, .IN, ttl, .SRV services.hostname svc.port⟩ ::
              ⟨svc.name, .IN, ttl, .TXT svc.txt⟩ ::
              (if include_ip then ipRecords af ifaces services.hostname ttl
               else []) },
          ⟨af.mdns_group, MDNS_PORT⟩)] ∧
    ((⟨svc.typ, .IN, ttl, .PTR svc.name⟩ ::
      ⟨svc.name, .IN, ttl, .SRV services.hostname svc.port⟩ ::
      ⟨svc.name, .IN, ttl, .TXT svc.txt⟩ ::
      (if include_ip then ipRecords af ifaces services.hostname ttl
       else []) : List Record).all (fun r => r.ttl == ttl)) = true := by
  constructor
  · cases include_ip <;>
      simp [send_unsolicited, newResponse, ServiceData.add_ptr_rr,
        ServiceData.add_srv_rr, ServiceData.add_txt_rr,
        AnswerBuilder.add_answer, add_ip_rr_eq, AnswerBuilder.isEmpty]
  · cases include_ip <;>
      simp [ipRecords_ttl af ifaces services.hostname ttl]

/-- Claim C6: a datagram whose reported length reaches the 4096-byte
receive-buffer capacity makes ingestion return the distinguishable
`BufferTooSmall` error immediately — no packet is enqueued for it and the
remaining receive events of the step are never attempted — and the poll
step still runs the outbound phase and leaves the driver running
(`Pending`). -/
theorem oversized_datagram_aborts_ingestion (af : AddressFamily)
    (ifaces : Option (List Iface)) (services : Services)
    (outgoing : List OutPacket) (k : Nat) (parsed : Option Packet)
    (addr : SocketAddr) (rest : List RecvEvent) (ss : List SendOutcome) :
    recv_packets af ifaces services outgoing
        (.ok (4096 + k) parsed addr :: rest) =
      (outgoing, some (.bufferTooSmall (4096 + k) 4096)) ∧
    pollStep af ifaces services outgoing []
        (.ok (4096 + k) parsed addr :: rest) ss =
      (outgoing.tail, .pending) := by
  have h1 : recv_packets af ifaces services outgoing
      (.ok (4096 + k) parsed addr :: rest) =
      (outgoing, some (.bufferTooSmall (4096 + k) 4096)) := by
    simp [recv_packets, Nat.le_add_right]
  refine ⟨h1, ?_⟩
  simp [pollStep, drainCommands, h1, outboundPhase, sendLoop_eq]

/-- Claim C7: an inbound message whose header has the truncated bit set is
dropped: `handle_packet` leaves the outbound queue unchanged, whatever the
questions and whatever the query bit. -/
theorem truncated_packet_dropped (af : AddressFamily)
    (ifaces : Option (List Iface)) (services : Services)
    (outgoing : List OutPacket) (id : Nat) (q : Bool)
    (questions : List Question) (addr : SocketAddr) :
    handle_packet af ifaces services outgoing
      (some ⟨id, q, true, questions⟩) addr = outgoing := by
  cases q <;> simp [handle_packet]

/-- Claim C8: the poll step drains the command channel first; a `Shutdown`
command or channel closure at the head terminates the driver immediately
with the outbound queue untouched (neither ingestion nor the outbound
drain runs, for any receive or send inputs); if the command drain does not
terminate, the step runs ingestion then the outbound phase and always
returns `Pending` (completion is reported only via a command-driven
transition). -/
theorem fsm_poll_command_priority (af : AddressFamily)
    (ifaces : Option (List Iface)) (services : Services)
    (outgoing : List OutPacket) (cs : List CommandEvent)
    (rs : List RecvEvent) (ss : List SendOutcome) :
    pollStep af ifaces services outgoing (.cmd .shutdown :: cs) rs ss =
      (outgoing, .ready) ∧
    pollStep af ifaces services outgoing (.closed :: cs) rs ss =
      (outgoing, .ready) ∧
    ((drainCommands af ifaces services outgoing cs).2 = false →
      pollStep af ifaces services outgoing cs rs ss =
        (outboundPhase
          (recv_packets af ifaces services
            (drainCommands af ifaces services outgoing cs).1 rs).1 ss,
         .pending)) := by
  refine ⟨?_, ?_, ?_⟩
  · simp [pollStep, drainCommands]
  · simp [pollStep, drainCommands]
  · intro h
    simp [pollStep, h]

/-- Claim C8 witness: with no pending command the step runs ingestion and
the outbound phase and stays `Pending`. -/
theorem fsm_poll_command_priority_witness :
    pollStep af0 none services0 [pkt0] [] [] [] =
      (outboundPhase
        (recv_packets af0 none services0
          (drainCommands af0 none services0 [pkt0] []).1 []).1 [],
       .pending) :=
  (fsm_poll_command_priority af0 none services0 [pkt0] [] [] []).2.2 rfl

/-- Claim C9: `handle_question` and its `add_ip_rr` helper are monotone on
the response-in-progress: each returns the builder it was given with some
list of records appended after the existing answers, so every record
already present survives in its original order. -/
theorem handle_question_monotone (af : AddressFamily)
    (ifaces : Option (List Iface)) (services : Services)
    (question : Question) (b : AnswerBuilder) (hostname : Name)
    (ttl : Nat) :
    (∃ extra, handle_question af ifaces services question b =
        { b with answers := b.answers ++ extra }) ∧
    (∃ extra, add_ip_rr af ifaces hostname b ttl =
        { b with answers := b.answers ++ extra }) :=
  ⟨⟨_, handle_question_eq af ifaces services question b⟩,
   ⟨_, add_ip_rr_eq af ifaces hostname b ttl⟩⟩

/-- Claim C10: a question of type A, AAAA or ANY whose name differs from
the responder's hostname appends nothing: the failed guard falls through
to the catch-all arm, so in particular an ANY query for a registered
service name never reaches the PTR, SRV or TXT rules. -/
theorem address_query_requires_hostname_match (af : AddressFamily)
    (ifaces : Option (List Iface)) (services : Services)
    (question : Question) (b : AnswerBuilder)
    (hty : question.qtype = .A ∨ question.qtype = .AAAA ∨
           question.qtype = .All)
    (hn : question.qname ≠ services.hostname) :
    handle_question af ifaces services question b = b := by
  obtain ⟨qn, qc, qt, qu⟩ := question
  cases qt <;> simp_all [handle_question]

/-- Claim C10 witness: an ANY query for the name of a registered service
(not the hostname) appends nothing, even though the registry resolves that
name. -/
theorem address_query_requires_hostname_match_witness :
    handle_question af0 none services0
      ⟨"web._http._tcp.local", .IN, .All, false⟩ b0 = b0 :=
  address_query_requires_hostname_match af0 none services0
    ⟨"web._http._tcp.local", .IN, .All, false⟩ b0 (by decide) (by decide)

end Mdns
